import Mathlib

/-!
Verification of the semantic-analysis core of the FishingHacks programming-lang
repository: module assembly (src/programming_lang/src/old/module.rs), the
untyped and typed import resolvers, struct and type resolution
(src/programming_lang/src/typechecking/mod.rs), the parse-tree type helpers
(src/programming_lang/src/parser/types.rs), and the target-triple parser
(src/mira/src/target.rs).

The Rust code is embedded shallowly: interned identifiers become String,
machine integers become Nat (with wrapping written out where the source can
underflow), HashMap becomes an association list with first-match lookup,
RwLock-guarded tables become explicit state threading, and every panicking
operation (index out of bounds, unreachable, todo) is made visible as an
explicit panic outcome. Functions whose Rust recursion is not structural are
given a fuel parameter; running out of fuel is a separate outcome (none), and
termination of the source recursion is proved as: some sufficient fuel exists
for every input.
-/

set_option maxHeartbeats 1000000
set_option maxRecDepth 4000
set_option linter.unusedVariables false

/-- Interned identifier (GlobalStr in globals.rs): modelled as a plain string,
which keeps cheap decidable equality. -/
abbrev GlobalStr := String

/-- Modelled from the spec: the distinguished GlobalStr::ZERO placeholder used
only during construction of typed slots. -/
def GlobalStrZero : GlobalStr := ""

/-- Source location (tokenizer::Location): file identity, line and column.
The file handle is modelled by its path string. -/
structure Location where
  file : String
  line : Nat
  column : Nat
deriving DecidableEq, Repr

/-- DUMMY_LOCATION from typechecking/mod.rs: line 0, column 0, empty file
path; the sentinel meaning a slot is reserved but not yet populated. -/
def DUMMY_LOCATION : Location := { file := "", line := 0, column := 0 }

/-- Association-list lookup with first-match semantics, the model of
HashMap::get (each map in the source is only ever extended by insert, and
the embedding keeps the last insert for a key first, see listInsert). -/
def lookupA {α : Type} : List (GlobalStr × α) → GlobalStr → Option α
  | [], _ => none
  | (k, v) :: rest, key => if k = key then some v else lookupA rest key

/-- HashMap::insert: replaces any earlier binding of the key. Prepending and
first-match lookup give the same observable map. -/
def listInsert {α : Type} (m : List (GlobalStr × α)) (k : GlobalStr) (v : α) :
    List (GlobalStr × α) :=
  (k, v) :: m

/-- HashMap::contains_key under the lookupA model. -/
def containsKey {α : Type} (m : List (GlobalStr × α)) (k : GlobalStr) : Bool :=
  (lookupA m k).isSome

/-- Annotations (annotations.rs) are carried around opaquely by the phases
this file embeds; modelled as the list of raw annotation strings. -/
abbrev Annotations := List String

section TargetTriple

/-- Arch from src/mira/src/target.rs (allowed: x86, x86_64). -/
inductive Arch where
  | X86_64
  | X86
deriving DecidableEq, Repr

/-- Os from src/mira/src/target.rs (allowed: freestanding, other, linux). -/
inductive Os where
  | Freestanding
  | Other
  | Linux
deriving DecidableEq, Repr

/-- Abi from src/mira/src/target.rs (allowed: none, gnu). -/
inductive Abi where
  | None
  | Gnu
deriving DecidableEq, Repr

/-- TargetParsingError from src/mira/src/target.rs. -/
inductive TargetParsingError where
  | InvalidArch
  | InvalidOs
  | InvalidAbi
  | TooManyArguments
  | MissingArch
  | MissingOs
deriving DecidableEq, Repr

/-- Arch::to_str (generated by the str_enum macro). -/
def Arch.to_str : Arch → String
  | .X86_64 => "x86_64"
  | .X86 => "x86"

/-- Os::to_str (generated by the str_enum macro). -/
def Os.to_str : Os → String
  | .Freestanding => "freestanding"
  | .Other => "other"
  | .Linux => "linux"

/-- Abi::to_str (generated by the str_enum macro). -/
def Abi.to_str : Abi → String
  | .None => "none"
  | .Gnu => "gnu"

/-- Arch::from_str (generated by the str_enum macro), on the split component
as a character list. -/
def Arch.from_str (s : List Char) : Option Arch :=
  if s = "x86_64".data then some .X86_64
  else if s = "x86".data then some .X86
  else none

/-- Os::from_str (generated by the str_enum macro). -/
def Os.from_str (s : List Char) : Option Os :=
  if s = "freestanding".data then some .Freestanding
  else if s = "other".data then some .Other
  else if s = "linux".data then some .Linux
  else none

/-- Abi::from_str (generated by the str_enum macro). -/
def Abi.from_str (s : List Char) : Option Abi :=
  if s = "none".data then some .None
  else if s = "gnu".data then some .Gnu
  else none

/-- Target from src/mira/src/target.rs. -/
structure Target where
  arch : Arch
  os : Os
  abi : Abi
deriving DecidableEq, Repr

/-- The Display implementation for Target: arch-os, then -abi only when the
ABI is not None. -/
def Target.display (t : Target) : String :=
  t.arch.to_str ++ "-" ++ t.os.to_str ++
    (if t.abi = Abi.None then "" else "-" ++ t.abi.to_str)

/-- str::split on a single separator character: the exact splitting Rust
performs in Target::from_str. Always yields at least one component; an empty
input yields one empty component. -/
def splitCh (sep : Char) : List Char → List (List Char)
  | [] => [[]]
  | c :: cs =>
    match splitCh sep cs with
    | [] => [[]]
    | p :: ps => if c = sep then [] :: p :: ps else (c :: p) :: ps

/-- Target::from_str: split on dashes, take arch, os, optional abi, reject a
fourth component, and only then validate each component. The iterator calls
iter.next() four times in that order; component validation happens after all
four, so the TooManyArguments and MissingOs checks fire before InvalidArch
can. -/
def Target.from_str (s : String) : Except TargetParsingError Target :=
  match splitCh '-' s.data with
  | [] => .error .MissingArch
  | arch :: rest =>
    match rest with
    | [] => .error .MissingOs
    | os :: rest2 =>
      let abi? : Option (List Char) := rest2.head?
      match rest2 with
      | _ :: _ :: _ => .error .TooManyArguments
      | _ =>
        match Arch.from_str arch with
        | none => .error .InvalidArch
        | some arch =>
          match Os.from_str os with
          | none => .error .InvalidOs
          | some os =>
            match abi? with
            | none => .ok { arch := arch, os := os, abi := Abi.None }
            | some a =>
              match Abi.from_str a with
              | none => .error .InvalidAbi
              | some abi => .ok { arch := arch, os := os, abi := abi }

end TargetTriple

namespace Old

/-!
The old generation of the front end that is present under src/: the parse
tree of src/programming_lang/src/parser/types.rs (whose TypeRef carries a
plain identifier, not a path) and the per-file module assembly of
src/programming_lang/src/old/module.rs.
-/

/-- TypeRef from src/programming_lang/src/parser/types.rs. num_references is
a u8 in the source; it is modelled as a Nat together with explicit mod-256
wrapping at the one subtraction that can underflow. -/
inductive TypeRef where
  | Reference (num_references : Nat) (type_name : GlobalStr) (loc : Location)
  | Void (loc : Location) (num_references : Nat)
  | Never (loc : Location)
  | UnsizedArray (num_references : Nat) (child : TypeRef) (loc : Location)
  | SizedArray (num_references : Nat) (child : TypeRef)
      (number_elements : Nat) (loc : Location)
deriving DecidableEq, Repr

/-- TypeRef::get_ref_count. -/
def TypeRef.get_ref_count : TypeRef → Nat
  | .Void _ n => n
  | .Reference n _ _ => n
  | .UnsizedArray n _ _ => n
  | .SizedArray n _ _ _ => n
  | .Never _ => 0

/-- TypeRef::can_deref. -/
def TypeRef.can_deref (t : TypeRef) : Bool :=
  t.get_ref_count > 0

/-- Outcome of TypeRef::try_clone_deref: the Option result of the source,
with the unreachable arm (Never) surfaced as an explicit panic. -/
inductive DerefResult where
  | returnedNone
  | returnedSome (t : TypeRef)
  | panicked
deriving DecidableEq, Repr

/-- Wrapping u8 decrement: the source computes num_references - 1 on a u8
after a guard that forces the value to be 0, so the release-build value
wraps to 255; the wrap is written out as mod-256 arithmetic. -/
def u8WrapDec (n : Nat) : Nat := (n + 255) % 256

/-- TypeRef::try_clone_deref: returns None when get_ref_count is positive,
otherwise rebuilds the value with the reference count decremented (Never
hits an unreachable arm). -/
def TypeRef.try_clone_deref (t : TypeRef) : DerefResult :=
  if t.get_ref_count > 0 then .returnedNone
  else
    match t with
    | .Reference n name loc => .returnedSome (.Reference (u8WrapDec n) name loc)
    | .UnsizedArray n child loc => .returnedSome (.UnsizedArray (u8WrapDec n) child loc)
    | .SizedArray n child k loc => .returnedSome (.SizedArray (u8WrapDec n) child k loc)
    | .Void loc n => .returnedSome (.Void loc (u8WrapDec n))
    | .Never _ => .panicked

/-- ProgrammingLangProgramFormingError (error.rs, shape fixed by the uses in
old/module.rs). -/
inductive FormingError where
  | AnonymousFunctionAtGlobalLevel (loc : Location)
  | IdentAlreadyDefined (loc : Location) (name : GlobalStr)
  | IdentNotDefined (loc : Location) (name : GlobalStr)
  | GlobalValueNoType (loc : Location)
  | GlobalValueNoLiteral (loc : Location)
  | NoCodeOutsideOfFunctions (loc : Location)
deriving DecidableEq, Repr

/-- Modelled from the spec: the parsed function body (a Statement in the
function registry). Its contents are never consulted by module assembly
(bake_functions only bakes nested functions into the registry), so it is
opaque here. -/
inductive FnBody where
  | opaque_body
deriving DecidableEq, Repr

/-- Modelled from the spec: the slice of FunctionContract that module
assembly reads, namely the optional name and the location. -/
structure FunctionContract where
  name : Option GlobalStr
  location : Location
deriving DecidableEq, Repr

/-- Modelled from the spec: a literal initializer value; its payload is not
inspected by module assembly. -/
inductive LiteralValue where
  | opaque_literal
deriving DecidableEq, Repr

/-- Modelled from the spec: the expression forms module assembly
distinguishes, namely a literal versus anything else, each with its
location. -/
inductive Expression where
  | Literal (v : LiteralValue) (loc : Location)
  | OtherExpr (loc : Location)
deriving DecidableEq, Repr

/-- Expression::loc. -/
def Expression.loc : Expression → Location
  | .Literal _ l => l
  | .OtherExpr l => l

/-- A parsed member function of a struct implementation: its contract plus
body; bake pushes it into the registry and get_baked_id reports the assigned
FunctionId. -/
structure ParsedFunction where
  contract : FunctionContract
  body : FnBody
deriving DecidableEq, Repr

/-- Struct from src/programming_lang/src/parser/types.rs, after baking:
global_impl and trait_impls carry FunctionIds. -/
structure Struct where
  loc : Location
  name : GlobalStr
  fields : List (GlobalStr × TypeRef)
  global_impl : List (GlobalStr × Nat)
  trait_impls : List (GlobalStr × List (GlobalStr × Nat))
  annotations : Annotations
deriving DecidableEq, Repr

/-- Modelled from the spec: the Statement shapes old/module.rs dispatches
on. Every statement kind that falls into the catch-all arm is collapsed
into OtherStatement, and the location accessor Statement::loc is the
stored location of each shape. -/
inductive Statement where
  | Function (contract : FunctionContract) (body : FnBody)
  | StructDef (name : GlobalStr) (elements : List (GlobalStr × TypeRef))
      (location : Location)
      (global_impl : List (GlobalStr × ParsedFunction))
      (impls : List (GlobalStr × List (GlobalStr × ParsedFunction)))
      (annotations : Annotations)
  | Var (name : GlobalStr) (expr : Expression) (typ : Option TypeRef)
      (location : Location)
  | ExternalFunction (contract : FunctionContract)
  | Export (key : GlobalStr) (exported_key : GlobalStr) (loc : Location)
  | OtherStatement (loc : Location)
deriving DecidableEq, Repr

/-- Statement::loc, modelled from the spec: the location stored in each
statement shape (for a function, its contract location). -/
def Statement.loc : Statement → Location
  | .Function c _ => c.location
  | .StructDef _ _ l _ _ _ => l
  | .Var _ _ _ l => l
  | .ExternalFunction c => c.location
  | .Export _ _ l => l
  | .OtherStatement l => l

/-- Module from src/programming_lang/src/old/module.rs. -/
structure Module where
  structs : List (GlobalStr × Struct)
  functions : List (GlobalStr × Nat)
  external_functions : List (GlobalStr × FunctionContract)
  static_values : List (GlobalStr × (TypeRef × LiteralValue))
  function_registry : List (FunctionContract × FnBody)
  imports : List (GlobalStr × (Location × Nat × List GlobalStr))
  exports : List (GlobalStr × GlobalStr)
deriving DecidableEq, Repr

/-- Module::is_defined: the flat namespace check across imports, functions,
structs, statics and external functions. -/
def Module.is_defined (m : Module) (key : GlobalStr) : Bool :=
  containsKey m.imports key || containsKey m.functions key
    || containsKey m.structs key || containsKey m.static_values key
    || containsKey m.external_functions key

/-- Module::push_fn: append to the registry, return the new id. -/
def Module.push_fn (m : Module) (contract : FunctionContract) (body : FnBody) :
    Module × Nat :=
  ({ m with function_registry := m.function_registry ++ [(contract, body)] },
   m.function_registry.length)

/-- The bake step for one parsed member function (Function::bake followed by
get_baked_id, modelled from the spec: baking registers the function and
records its id). -/
def bakeFunction (m : Module) (f : ParsedFunction) : Module × Nat :=
  m.push_fn f.contract f.body

/-- Bake every member of one implementation map in order, collecting the
assigned ids. -/
def bakeImpl (m : Module) : List (GlobalStr × ParsedFunction) →
    Module × List (GlobalStr × Nat)
  | [] => (m, [])
  | (name, f) :: rest =>
    let (m1, fid) := bakeFunction m f
    let (m2, baked) := bakeImpl m1 rest
    (m2, (name, fid) :: baked)

/-- Bake every trait implementation in order. -/
def bakeImpls (m : Module) : List (GlobalStr × List (GlobalStr × ParsedFunction)) →
    Module × List (GlobalStr × List (GlobalStr × Nat))
  | [] => (m, [])
  | (trait_name, timpl) :: rest =>
    let (m1, baked) := bakeImpl m timpl
    let (m2, bakedRest) := bakeImpls m1 rest
    (m2, (trait_name, baked) :: bakedRest)

/-- Module::push_statement. Returns the updated module together with the
error, if any; every error path of the source returns before mutating the
module, so the module comes back unchanged exactly when an error is
reported. bake_functions on a function body is modelled as a no-op on the
name maps (it only bakes nested functions into the registry, which no
claim observes); the registry push of the outer function itself is kept. -/
def Module.push_statement (m : Module) (statement : Statement) :
    Module × Option FormingError :=
  let loc := statement.loc
  match statement with
  | .Function contract body =>
    match contract.name with
    | none => (m, some (.AnonymousFunctionAtGlobalLevel loc))
    | some name =>
      let (m1, fn_id) := m.push_fn contract body
      ({ m1 with functions := listInsert m1.functions name fn_id }, none)
  | .StructDef name fields location global_impl impls annots =>
    if m.is_defined name then
      (m, some (.IdentAlreadyDefined location name))
    else
      let (m1, struct_global_impl) := bakeImpl m global_impl
      let (m2, struct_impls) := bakeImpls m1 impls
      let typ : Struct :=
        { loc := location, name := name, fields := fields,
          global_impl := struct_global_impl, trait_impls := struct_impls,
          annotations := annots }
      ({ m2 with structs := listInsert m2.structs name typ }, none)
  | .Var _ expr none _ =>
    (m, some (.GlobalValueNoType expr.loc))
  | .Var name expr (some typ) location =>
    if m.is_defined name then
      (m, some (.IdentAlreadyDefined location name))
    else
      match expr with
      | .Literal val _ =>
        ({ m with static_values := listInsert m.static_values name (typ, val) }, none)
      | .OtherExpr _ =>
        (m, some (.GlobalValueNoLiteral expr.loc))
  | .ExternalFunction contract =>
    match contract.name with
    | some name =>
      if m.is_defined name then
        (m, some (.IdentAlreadyDefined contract.location name))
      else
        ({ m with external_functions := listInsert m.external_functions name contract },
         none)
    | none => (m, some (.AnonymousFunctionAtGlobalLevel contract.location))
  | .Export key exported_key eloc =>
    if m.is_defined key then
      ({ m with exports := listInsert m.exports exported_key key }, none)
    else
      (m, some (.IdentNotDefined eloc key))
  | .OtherStatement _ =>
    (m, some (.NoCodeOutsideOfFunctions loc))

end Old

/-!
The current generation: the typechecking phase of
src/programming_lang/src/typechecking/mod.rs, together with the parse-tree
and context types it consumes. The parser module of this generation is not
under src/, so its data shapes (TypeRef with a Path, the untyped Struct, the
module context) are modelled from the data-model section of the spec and
from how typechecking/mod.rs destructures them.
-/

/-- Modelled from the spec: the current parse-tree TypeRef whose Reference
carries a Path, an ordered sequence of (identifier, generic-arguments)
segments. The segment list of a Path is inlined as a plain list, matching
the field access path.entries in the source. DynReference is parsed but
every consuming branch of the source is a todo stub; its payload is not
needed here. -/
inductive TypeRef where
  | Reference (num_references : Nat)
      (type_name : List (GlobalStr × List TypeRef)) (loc : Location)
  | DynReference (loc : Location)
  | Void (loc : Location) (num_references : Nat)
  | Never (loc : Location)
  | UnsizedArray (num_references : Nat) (child : TypeRef) (loc : Location)
  | SizedArray (num_references : Nat) (child : TypeRef)
      (number_elements : Nat) (loc : Location)

/-- Modelled from the spec: a generic declared on a struct, a name plus
bound paths; the bound paths are plain segment lists (the source passes
bound.entries directly to resolve_import, which takes identifier slices). -/
structure Generic where
  name : GlobalStr
  bounds : List ((List GlobalStr) × Location)

/-- Modelled from the spec: the untyped parsed struct of the current
generation, with exactly the fields typechecking/mod.rs reads: name,
elements, location, global_impl, annotations, module_id and generics. -/
structure Struct where
  name : GlobalStr
  elements : List (GlobalStr × TypeRef)
  location : Location
  global_impl : List (GlobalStr × Nat)
  annotations : Annotations
  module_id : Nat
  generics : List Generic

/-- ModuleScopeValue from the current module context: a tagged handle. -/
inductive ModuleScopeValue where
  | Module (id : Nat)
  | Struct (id : Nat)
  | Trait (id : Nat)
  | Function (id : Nat)
  | ExternalFunction (id : Nat)
  | Static (id : Nat)
deriving DecidableEq, Repr

/-- ScopeKind from typechecking/mod.rs; the source constructor Type is
spelled TypeK because Type is reserved in Lean. -/
inductive ScopeKind where
  | TraitK
  | TypeK
  | FunctionK
  | StaticK
  | ModuleK
deriving DecidableEq, Repr

/-- The From impl turning a ModuleScopeValue into the ScopeKind reported in
MismatchingScopeType errors. -/
def scopeKindOf : ModuleScopeValue → ScopeKind
  | .Trait _ => .TraitK
  | .Struct _ => .TypeK
  | .Static _ => .StaticK
  | .Module _ => .ModuleK
  | .Function _ => .FunctionK
  | .ExternalFunction _ => .FunctionK

/-- TypecheckingError (typechecking/error.rs, shape fixed by the uses in
typechecking/mod.rs). -/
inductive TypecheckingError where
  | ExportNotFound (location : Location) (name : GlobalStr)
  | UnboundIdent (location : Location) (name : GlobalStr)
  | CyclicDependency (location : Location)
  | MismatchingScopeType (location : Location) (expected : ScopeKind)
      (found : ScopeKind)
  | RecursiveTypeDetected (location : Location)
  | UnexpectedGenerics (location : Location)
deriving DecidableEq, Repr

/-- Modelled from the spec: an untyped module of the current generation:
scope, exports, imports and the file paths. -/
structure UntypedModule where
  scope : List (GlobalStr × ModuleScopeValue)
  exports : List (GlobalStr × GlobalStr)
  imports : List (GlobalStr × (Location × Nat × List GlobalStr))
  path : String
  root : String

/-- Modelled from the spec: the slice of the current FunctionContract that
typechecking/mod.rs reads (the location, for an error message; the name for
completeness). -/
structure FunctionContract where
  name : Option GlobalStr
  location : Location

/-- Modelled from the spec: an untyped parsed function body; opaque to the
phases embedded here. -/
inductive Statement where
  | opaque_stmt

/-- Modelled from the spec: an untyped trait; only the length of the traits
table is consulted by the embedded operations. -/
inductive UntypedTrait where
  | opaque_trait

/-- Modelled from the spec: an untyped static; only the length of the
statics table is consulted by the embedded operations. -/
inductive UntypedStatic where
  | opaque_static

/-- Modelled from the spec: ModuleContext, the untyped world consumed by
resolution: per-kind dense tables indexed by integer handles. -/
structure ModuleContext where
  modules : List UntypedModule
  structs : List Struct
  traits : List UntypedTrait
  functions : List (FunctionContract × Statement)
  external_functions : List FunctionContract
  statics : List UntypedStatic

/-- Outcome of running an embedded fallible operation: the Ok and Err of the
source Result, plus an explicit panic for index-out-of-bounds, unreachable
and todo. -/
inductive RunRes (α : Type) where
  | ok (v : α)
  | err (e : TypecheckingError)
  | panic
deriving DecidableEq, Repr

/-- The visited list of resolve_import: (ModuleId, first-segment) pairs. -/
abbrev Visited := List (Nat × GlobalStr)

/-- Membership test the source runs on the visited list: same module id and
same first segment. -/
def pairMem (vis : Visited) (m : Nat) (s : GlobalStr) : Bool :=
  vis.any (fun p => p.1 == m && p.2 == s)

/-- The first-segment-to-ident step shared by both resolvers: consult
exports; on a miss fall through to the segment itself only while the
visited list (after the push of the current pair) is still shorter than 2,
otherwise fail. The None result stands for the ExportNotFound early
return. -/
def identOf (md : UntypedModule) (first : GlobalStr) (visLen : Nat) :
    Option GlobalStr :=
  match lookupA md.exports first with
  | some ident => some ident
  | none => if visLen < 2 then some first else none

/-- The struct tail step of resolve_import when the struct came from the
imports branch (lines 663 to 678): look up the second segment in the
struct global_impl; a third segment is reported against the location of the
found function (read from the functions table, panicking on a bad id). -/
def structTailImports (ctx : ModuleContext) (_loc : Location) (sid : Nat)
    (i1 : GlobalStr) (rest2 : List GlobalStr) : RunRes ModuleScopeValue :=
  match ctx.structs[sid]? with
  | none => .panic
  | some st =>
    match lookupA st.global_impl i1 with
    | some function_id =>
      match rest2 with
      | [] => .ok (.Function function_id)
      | i2 :: _ =>
        match ctx.functions[function_id]? with
        | none => .panic
        | some f => .err (.ExportNotFound f.1.location i2)
    | none => .err (.ExportNotFound st.location i1)

/-- The struct tail step of resolve_import when the struct came from the
scope branch (lines 696 to 711): same shape, but a third segment is
reported against the location passed in. -/
def structTailScope (ctx : ModuleContext) (loc : Location) (sid : Nat)
    (i1 : GlobalStr) (rest2 : List GlobalStr) : RunRes ModuleScopeValue :=
  match ctx.structs[sid]? with
  | none => .panic
  | some st =>
    match lookupA st.global_impl i1 with
    | some function_id =>
      match rest2 with
      | [] => .ok (.Function function_id)
      | i2 :: _ => .err (.ExportNotFound loc i2)
    | none => .err (.ExportNotFound st.location i1)

/-- resolve_import from typechecking/mod.rs (the untyped resolver), with a
fuel parameter standing for recursion depth; none means the fuel ran out.
The returned Visited is the final state of the by-reference visited vector.
The source path slice import is called imp because import is reserved in
Lean. Every step mirrors the source: empty path returns the home module; a
repeated (module, first-segment) pair is a CyclicDependency; the pair is
pushed before anything else; a bad module id panics (index out of bounds);
exports gate the first segment via identOf; an imports entry is chased
recursively, after which a Module value restarts on the remaining path and
a Struct value takes the struct tail step; otherwise scope is consulted,
where a Module value with more segments hits an unreachable panic; and the
final fallthrough reports ExportNotFound naming the SECOND path segment,
which panics (index out of bounds) when the path has exactly one
segment. -/
def resolve_import (ctx : ModuleContext) :
    Nat → Nat → List GlobalStr → Location → Visited →
    Option (RunRes ModuleScopeValue × Visited)
  | 0, _, _, _, _ => none
  | fuel + 1, module, imp, loc, vis =>
    match imp with
    | [] => some (.ok (.Module module), vis)
    | i0 :: rest =>
      if pairMem vis module i0 then
        some (.err (.CyclicDependency loc), vis)
      else
        let vis1 := vis ++ [(module, i0)]
        match ctx.modules[module]? with
        | none => some (.panic, vis1)
        | some md =>
          match identOf md i0 vis1.length with
          | none => some (.err (.ExportNotFound loc i0), vis1)
          | some ident =>
            match lookupA md.imports ident with
            | some (sub_location, module2, path2) =>
              match resolve_import ctx fuel module2 path2 sub_location vis1 with
              | none => none
              | some (.err e, vis2) => some (.err e, vis2)
              | some (.panic, vis2) => some (.panic, vis2)
              | some (.ok value, vis2) =>
                match rest with
                | [] => some (.ok value, vis2)
                | i1 :: rest2 =>
                  match value with
                  | .Module id => resolve_import ctx fuel id rest loc vis2
                  | .Struct sid => some (structTailImports ctx loc sid i1 rest2, vis2)
                  | _ => some (.err (.ExportNotFound loc i1), vis2)
            | none =>
              match lookupA md.scope ident with
              | some value =>
                match rest with
                | [] => some (.ok value, vis1)
                | i1 :: rest2 =>
                  match value with
                  | .Struct sid => some (structTailScope ctx loc sid i1 rest2, vis1)
                  | .Module _ => some (.panic, vis1)
                  | _ => some (.err (.ExportNotFound loc i1), vis1)
              | none =>
                match rest with
                | [] => some (.panic, vis1)
                | i1 :: _ => some (.err (.ExportNotFound loc i1), vis1)

/-- The semantic Type of typechecking/types.rs (spelled Ty because Type is
reserved in Lean). Modelled from the spec data model: primitives each carry
a reference count except Never; Struct carries handle, name and reference
count; Generic an unresolved parameter; Trait a bound-promoted generic;
arrays wrap an element type. -/
inductive Ty where
  | PrimitiveNever
  | PrimitiveVoid (num_references : Nat)
  | PrimitiveBool (num_references : Nat)
  | PrimitiveChar (num_references : Nat)
  | PrimitiveStr (num_references : Nat)
  | PrimitiveI8 (num_references : Nat)
  | PrimitiveI16 (num_references : Nat)
  | PrimitiveI32 (num_references : Nat)
  | PrimitiveI64 (num_references : Nat)
  | PrimitiveISize (num_references : Nat)
  | PrimitiveU8 (num_references : Nat)
  | PrimitiveU16 (num_references : Nat)
  | PrimitiveU32 (num_references : Nat)
  | PrimitiveU64 (num_references : Nat)
  | PrimitiveUSize (num_references : Nat)
  | PrimitiveF16 (num_references : Nat)
  | PrimitiveF32 (num_references : Nat)
  | PrimitiveF64 (num_references : Nat)
  | Struct (struct_id : Nat) (name : GlobalStr) (num_references : Nat)
  | Generic (name : GlobalStr) (num_references : Nat)
  | Trait (trait_refs : List Nat) (num_references : Nat) (real_name : GlobalStr)
  | UnsizedArray (typ : Ty) (num_references : Nat)
  | SizedArray (typ : Ty) (num_references : Nat) (number_elements : Nat)
deriving DecidableEq, Repr

/-- The reserved primitive type names, keyed to their Ty constructor
(RESERVED_TYPE_NAMES with its meanings). The bang name maps to
PrimitiveNever, which carries no reference count. -/
def primitiveOfName (name : GlobalStr) : Option (Nat → Ty) :=
  if name = "str" then some .PrimitiveStr
  else if name = "bool" then some .PrimitiveBool
  else if name = "char" then some .PrimitiveChar
  else if name = "void" then some .PrimitiveVoid
  else if name = "i8" then some .PrimitiveI8
  else if name = "i16" then some .PrimitiveI16
  else if name = "i32" then some .PrimitiveI32
  else if name = "i64" then some .PrimitiveI64
  else if name = "isize" then some .PrimitiveISize
  else if name = "u8" then some .PrimitiveU8
  else if name = "u16" then some .PrimitiveU16
  else if name = "u32" then some .PrimitiveU32
  else if name = "u64" then some .PrimitiveU64
  else if name = "usize" then some .PrimitiveUSize
  else if name = "f16" then some .PrimitiveF16
  else if name = "f32" then some .PrimitiveF32
  else if name = "f64" then some .PrimitiveF64
  else if name = "!" then some (fun _ => .PrimitiveNever)
  else none

/-- Modelled from the spec: resolve_primitive_type of typechecking/types.rs.
A pure function matching a single-segment unqualified Reference against the
reserved name list (transferring the reference count), and matching Void
and Never parse nodes directly. Everything else is None. -/
def resolve_primitive_type : TypeRef → Option Ty
  | .Void _ n => some (.PrimitiveVoid n)
  | .Never _ => some .PrimitiveNever
  | .Reference n type_name _ =>
    match type_name with
    | [(name, args)] =>
      if args.isEmpty then (primitiveOfName name).map (fun f => f n) else none
    | _ => none
  | _ => none

/-- TypedStruct from typechecking/mod.rs. -/
structure TypedStruct where
  name : GlobalStr
  elements : List (GlobalStr × Ty)
  location : Location
  global_impl : List (GlobalStr × Nat)
  trait_impl : List (Nat × List Nat)
  annotations : Annotations
  module_id : Nat
  id : Nat
  generics : List (GlobalStr × List Nat)

/-- TypecheckedFunctionContract from typechecking/mod.rs. -/
structure TypecheckedFunctionContract where
  name : Option GlobalStr
  arguments : List (GlobalStr × Ty)
  return_type : Ty
  annotations : Annotations
  location : Location
  module_id : Nat

/-- TypedTrait from typechecking/mod.rs. -/
structure TypedTrait where
  name : GlobalStr
  functions : List (GlobalStr × List (GlobalStr × Ty) × Ty × Annotations × Location)
  location : Location
  module_id : Nat
  id : Nat
  annotations : Annotations

/-- Modelled from the spec: a typechecked expression of a lowered body. The
operations embedded here never construct one (bodies are seeded empty), so
the type has no inhabitants we ever build; it is left without
constructors. -/
inductive TypecheckedExpression : Type

/-- Modelled from the spec: TypedLiteral; only the Void variant is exercised
by the embedded operations (the seeding of static slots). -/
inductive TypedLiteral where
  | Void

/-- Modelled from the spec: the lang-item table, opaque to the embedded
operations; LangItems::default is its single value here. -/
inductive LangItems where
  | default_items

/-- TypecheckedModule from typechecking/mod.rs. The context field of the
source (the Arc back-reference to the owning TypecheckingContext) is the
one field not representable in a value model and is omitted; no embedded
operation reads it. -/
structure TypecheckedModule where
  scope : List (GlobalStr × ModuleScopeValue)
  exports : List (GlobalStr × GlobalStr)
  path : String
  root : String

/-- TypecheckingContext from typechecking/mod.rs: the typed world, with the
RwLocks erased (state is threaded explicitly). -/
structure TypecheckingContext where
  modules : List TypecheckedModule
  functions : List (TypecheckedFunctionContract × List TypecheckedExpression)
  external_functions :
    List (TypecheckedFunctionContract × Option (List TypecheckedExpression))
  statics : List (Ty × TypedLiteral × Nat × Location × Annotations)
  structs : List TypedStruct
  traits : List TypedTrait
  lang_items : LangItems

/-- The sentinel typed struct slots seeded by TypecheckingContext::new:
each slot gets its own id, the ZERO name and DUMMY_LOCATION. -/
def seedTypedStructs (n : Nat) : List TypedStruct :=
  (List.range n).map (fun id =>
    { name := GlobalStrZero, elements := [], location := DUMMY_LOCATION,
      global_impl := [], trait_impl := [], annotations := [],
      module_id := 0, generics := [], id := id : TypedStruct })

/-- TypecheckingContext::new: size the five typed tables to their untyped
counterparts and fill them with sentinel entries (structs get their id,
everything gets DUMMY_LOCATION), then seed the typed module table with a
single entry copied from untyped module 0. The source indexes the untyped
module table at the current typed length (0), so an empty untyped module
table panics, hence the Option result (none is that panic). -/
def TypecheckingContext.new (context : ModuleContext) :
    Option TypecheckingContext :=
  let structs := seedTypedStructs context.structs.length
  let statics := (List.range context.statics.length).map (fun _ =>
    ((.PrimitiveNever : Ty), (.Void : TypedLiteral), 0, DUMMY_LOCATION,
      ([] : Annotations)))
  let functions := (List.range context.functions.length).map (fun _ =>
    (({ annotations := [], name := none, arguments := [],
        return_type := .PrimitiveNever, location := DUMMY_LOCATION,
        module_id := 0 } : TypecheckedFunctionContract),
      ([] : List TypecheckedExpression)))
  let external_functions :=
    (List.range context.external_functions.length).map (fun _ =>
      (({ annotations := [], name := none, arguments := [],
          return_type := .PrimitiveNever, location := DUMMY_LOCATION,
          module_id := 0 } : TypecheckedFunctionContract),
        (none : Option (List TypecheckedExpression))))
  let traits := (List.range context.traits.length).map (fun _ =>
    { name := GlobalStrZero, functions := [], location := DUMMY_LOCATION,
      module_id := 0, id := 0, annotations := [] : TypedTrait })
  match context.modules[0]? with
  | none => none
  | some md0 =>
    some { structs := structs, statics := statics, functions := functions,
           traits := traits, external_functions := external_functions,
           modules := [{ scope := md0.scope, exports := md0.exports,
                         path := md0.path, root := md0.root }],
           lang_items := .default_items }

/-- typed_resolve_import from typechecking/mod.rs: same contract as
resolve_import but consulting the typed module table and never chasing
imports; consequently it has no recursion. A scope hit that is a Module
with further segments is an unreachable panic in the source; the final
fallthrough correctly names the FIRST segment (unlike resolve_import). -/
def typed_resolve_import (context : TypecheckingContext) (module : Nat)
    (imp : List GlobalStr) (location : Location) (vis : Visited) :
    RunRes ModuleScopeValue :=
  match imp with
  | [] => .ok (.Module module)
  | i0 :: rest =>
    if pairMem vis module i0 then .err (.CyclicDependency location)
    else
      let vis1 := vis ++ [(module, i0)]
      match context.modules[module]? with
      | none => .panic
      | some md =>
        match identOfTyped md i0 vis1.length with
        | none => .err (.ExportNotFound location i0)
        | some ident =>
          match lookupA md.scope ident with
          | some value =>
            match rest with
            | [] => .ok value
            | i1 :: rest2 =>
              match value with
              | .Struct sid =>
                match context.structs[sid]? with
                | none => .panic
                | some st =>
                  match lookupA st.global_impl i1 with
                  | some function_id =>
                    match rest2 with
                    | [] => .ok (.Function function_id)
                    | i2 :: _ => .err (.ExportNotFound location i2)
                  | none => .err (.ExportNotFound st.location i1)
              | .Module _ => .panic
              | _ => .err (.ExportNotFound location i1)
          | none => .err (.ExportNotFound location i0)
where
  /-- The exports gate of the typed resolver, identical in shape to
  identOf but reading a typed module. -/
  identOfTyped (md : TypecheckedModule) (first : GlobalStr) (visLen : Nat) :
      Option GlobalStr :=
    match lookupA md.exports first with
    | some ident => some ident
    | none => if visLen < 2 then some first else none

/-- The nominal-path tail of resolve_type (lines 294 to 320 of
typechecking/mod.rs): reject any segment with generic arguments, resolve
the plain path through typed_resolve_import, require the result to be a
struct and rebuild Ty.Struct with the name read from the typed struct
table. -/
def resolve_type_path (self : TypecheckingContext) (module_id : Nat)
    (num_references : Nat) (type_name : List (GlobalStr × List TypeRef))
    (loc : Location) : RunRes Ty :=
  let path := type_name.map (fun v => v.1)
  if type_name.any (fun e => !e.2.isEmpty) then
    .err (.UnexpectedGenerics loc)
  else
    match typed_resolve_import self module_id path loc [] with
    | .panic => .panic
    | .err e => .err e
    | .ok (.Struct id) =>
      match self.structs[id]? with
      | none => .panic
      | some st => .ok (.Struct id st.name num_references)
    | .ok v => .err (.MismatchingScopeType loc .TypeK (scopeKindOf v))

/-- TypecheckingContext::resolve_type: resolve a syntactic TypeRef against
the typed context. Primitives first; a DynReference is a todo panic; a
single-segment path without generic arguments that names an in-scope
generic becomes Ty.Generic carrying the written reference count; otherwise
the nominal-path tail runs; Void and Never are unreachable after the
primitive check; arrays recurse on the element type. -/
def resolve_type (self : TypecheckingContext) (module_id : Nat)
    (typ : TypeRef) (generics : List GlobalStr) : RunRes Ty :=
  match resolve_primitive_type typ with
  | some primitive => .ok primitive
  | none =>
    match typ with
    | .DynReference _ => .panic
    | .Reference num_references type_name loc =>
      (match type_name with
      | [(name, args)] =>
        if args.isEmpty && generics.contains name then
          .ok (.Generic name num_references)
        else
          resolve_type_path self module_id num_references [(name, args)] loc
      | tn => resolve_type_path self module_id num_references tn loc)
    | .Void _ _ => .panic
    | .Never _ => .panic
    | .UnsizedArray num_references child _ =>
      match resolve_type self module_id child generics with
      | .ok t => .ok (.UnsizedArray t num_references)
      | .err e => .err e
      | .panic => .panic
    | .SizedArray num_references child number_elements _ =>
      match resolve_type self module_id child generics with
      | .ok t => .ok (.SizedArray t num_references number_elements)
      | .err e => .err e
      | .panic => .panic

/-- The mutable state of struct resolution: the untyped struct table (whose
slots are drained and marked in progress), the typed struct table (whose
slots are committed), and the accumulated error list. The module tables and
the remaining context are never written by these operations and stay in the
fixed base context. -/
structure TCState where
  ustructs : List Struct
  tstructs : List TypedStruct
  errors : List TypecheckingError

/-- Outcome of one stateful resolution step: a value with the new state, or
a panic. Fuel exhaustion is the surrounding Option. -/
inductive StepResult (α : Type) where
  | ok (a : α) (st : TCState)
  | panic

/-- The context as resolve_import sees it mid-resolution: the base context
with the struct table replaced by its current mutated state. -/
def ctxWith (base : ModuleContext) (st : TCState) : ModuleContext :=
  { base with structs := st.ustructs }

/-- The generic-bounds loop of resolve_struct (lines 366 to 381): resolve
each bound path with a fresh visited list; an error is pushed and the bound
skipped; a non-trait result pushes UnboundIdent naming the last path
segment (panicking on an empty bound path); a trait id is collected. -/
def resolveBounds (base : ModuleContext) (fuel : Nat) (st : TCState)
    (module_id : Nat) :
    List ((List GlobalStr) × Location) → Option (StepResult (List Nat))
  | [] => some (.ok [] st)
  | (bound, bloc) :: rest =>
    match resolve_import (ctxWith base st) fuel module_id bound bloc [] with
    | none => none
    | some (.panic, _) => some .panic
    | some (.err e, _) =>
      resolveBounds base fuel { st with errors := st.errors ++ [e] } module_id rest
    | some (.ok (.Trait trait_id), _) =>
      match resolveBounds base fuel st module_id rest with
      | none => none
      | some .panic => some .panic
      | some (.ok bounds st2) => some (.ok (trait_id :: bounds) st2)
    | some (.ok _, _) =>
      match bound.getLast? with
      | none => some .panic
      | some nm =>
        resolveBounds base fuel
          { st with errors := st.errors ++ [.UnboundIdent bloc nm] } module_id rest

/-- The generics loop of resolve_struct: collect (name, resolved bounds) per
generic, in order. -/
def resolveGenerics (base : ModuleContext) (fuel : Nat) (st : TCState)
    (module_id : Nat) :
    List Generic → Option (StepResult (List (GlobalStr × List Nat)))
  | [] => some (.ok [] st)
  | g :: rest =>
    match resolveBounds base fuel st module_id g.bounds with
    | none => none
    | some .panic => some .panic
    | some (.ok bounds st1) =>
      match resolveGenerics base fuel st1 module_id rest with
      | none => none
      | some .panic => some .panic
      | some (.ok gens st2) => some (.ok ((g.name, bounds) :: gens) st2)

mutual

/-- resolve_struct from typechecking/mod.rs (returns whether a recursive
field was detected). A typed slot with a real location is already resolved:
false. An untyped slot whose location is already DUMMY is in progress:
true. Otherwise drain the untyped slot (global_impl, annotations,
elements), resolve the generic bounds, replace the untyped location with
DUMMY, resolve every field (dropping the ones that fail), commit the typed
struct and return false. Fuel decreases at every call between the mutual
functions so that the recursion is structural and the definitions compute;
running out is none. -/
def resolve_struct (base : ModuleContext) :
    Nat → TCState → Nat → Nat → Option (StepResult Bool)
  | 0, _, _, _ => none
  | fuel + 1, st, id, module_id =>
    match st.tstructs[id]? with
    | none => some .panic
    | some ts =>
      if ts.location ≠ DUMMY_LOCATION then some (.ok false st)
      else
        match st.ustructs[id]? with
        | none => some .panic
        | some us =>
          if us.location = DUMMY_LOCATION then some (.ok true st)
          else
            let taken : Struct :=
              { us with global_impl := [], annotations := [], elements := [] }
            let st1 : TCState := { st with ustructs := st.ustructs.set id taken }
            match resolveGenerics base fuel st1 module_id us.generics with
            | none => none
            | some .panic => some .panic
            | some (.ok generics st2) =>
              let st3 : TCState :=
                { st2 with ustructs :=
                    st2.ustructs.set id { taken with location := DUMMY_LOCATION } }
              match resolveFields base fuel st3 us.elements generics module_id [] with
              | none => none
              | some .panic => some .panic
              | some (.ok elems st4) =>
                let typed_struct : TypedStruct :=
                  { name := us.name, location := us.location, elements := elems,
                    global_impl := us.global_impl, annotations := us.annotations,
                    module_id := module_id, id := id, generics := generics,
                    trait_impl := [] }
                some (.ok false
                  { st4 with tstructs := st4.tstructs.set id typed_struct })
termination_by structural fuel => fuel

/-- The field loop of resolve_struct (lines 396 to 425): resolve each field
type; a failed field is dropped; a Generic whose declared bounds are
non-empty is promoted to a Trait type. -/
def resolveFields (base : ModuleContext) :
    Nat → TCState → List (GlobalStr × TypeRef) →
    List (GlobalStr × List Nat) → Nat → List (GlobalStr × Ty) →
    Option (StepResult (List (GlobalStr × Ty)))
  | 0, _, _, _, _, _ => none
  | _ + 1, st, [], _, _, acc => some (.ok acc st)
  | fuel + 1, st, (ename, etyp) :: rest, gens, module_id, acc =>
    match type_resolution_resolve_type base fuel st etyp
        (gens.map (fun g => g.1)) module_id with
    | none => none
    | some .panic => some .panic
    | some (.ok none st2) =>
      resolveFields base fuel st2 rest gens module_id acc
    | some (.ok (some ty) st2) =>
      let ty2 : Ty :=
        match ty with
        | .Generic real_name n =>
          match gens.find? (fun g => g.1 = real_name) with
          | some g =>
            if g.2.length > 0 then .Trait g.2 n real_name
            else .Generic real_name n
          | none => .Generic real_name n
        | t => t
      resolveFields base fuel st2 rest gens module_id (acc ++ [(ename, ty2)])
termination_by structural fuel => fuel

/-- The nominal tail of type_resolution_resolve_type (lines 469 to 513):
resolve the path with the untyped resolver (an error becomes UnboundIdent
naming the last segment, panicking on an empty path); a non-struct is a
MismatchingScopeType; a struct whose typed slot is already real yields the
type; otherwise resolve that struct inline first, and if it reports itself
in progress push RecursiveTypeDetected and drop the field. -/
def type_resolution_ref_tail (base : ModuleContext) :
    Nat → TCState → Nat → List GlobalStr → Location → Nat →
    Option (StepResult (Option Ty))
  | 0, _, _, _, _, _ => none
  | fuel + 1, st, num_references, path, loc, module =>
    match resolve_import (ctxWith base st) fuel module path loc [] with
    | none => none
    | some (.panic, _) => some .panic
    | some (.err _, _) =>
      match path.getLast? with
      | none => some .panic
      | some nm =>
        some (.ok none { st with errors := st.errors ++ [.UnboundIdent loc nm] })
    | some (.ok (.Struct sid), _) =>
      match st.tstructs[sid]? with
      | none => some .panic
      | some tst =>
        if tst.location ≠ DUMMY_LOCATION then
          some (.ok (some (.Struct sid tst.name num_references)) st)
        else
          match st.ustructs[sid]? with
          | none => some .panic
          | some us2 =>
            match resolve_struct base fuel st sid us2.module_id with
            | none => none
            | some .panic => some .panic
            | some (.ok true st2) =>
              some (.ok none
                { st2 with errors := st2.errors ++ [.RecursiveTypeDetected loc] })
            | some (.ok false st2) =>
              match st2.tstructs[sid]? with
              | none => some .panic
              | some tst2 =>
                if tst2.location ≠ DUMMY_LOCATION then
                  some (.ok (some (.Struct sid tst2.name num_references)) st2)
                else some .panic
    | some (.ok v, _) =>
      some (.ok none
        { st with errors :=
            st.errors ++ [.MismatchingScopeType loc .TypeK (scopeKindOf v)] })
termination_by structural fuel => fuel

/-- type_resolution_resolve_type from typechecking/mod.rs: the struct-field
type resolver. Primitives first; DynReference is a todo panic; a Reference
whose segments carry generic arguments yields None with no error; a
single-segment path naming an in-scope generic yields Ty.Generic with
reference count hardcoded to 0 in the source; otherwise the nominal tail
runs; Void and Never are unreachable; arrays recurse. -/
def type_resolution_resolve_type (base : ModuleContext) :
    Nat → TCState → TypeRef → List GlobalStr → Nat →
    Option (StepResult (Option Ty))
  | 0, _, _, _, _ => none
  | fuel + 1, st, typ, gens, module =>
    match resolve_primitive_type typ with
    | some t => some (.ok (some t) st)
    | none =>
      match typ with
      | .DynReference _ => some .panic
      | .Reference num_references type_name loc =>
        if type_name.any (fun e => !e.2.isEmpty) then some (.ok none st)
        else
          (match type_name with
          | [(name, args)] =>
            if args.isEmpty && gens.contains name then
              some (.ok (some (.Generic name 0)) st)
            else
              type_resolution_ref_tail base fuel st num_references
                [name] loc module
          | tn =>
            type_resolution_ref_tail base fuel st num_references
              (tn.map (fun v => v.1)) loc module)
      | .Void _ _ => some .panic
      | .Never _ => some .panic
      | .UnsizedArray num_references child _ =>
        match type_resolution_resolve_type base fuel st child gens module with
        | none => none
        | some .panic => some .panic
        | some (.ok none st2) => some (.ok none st2)
        | some (.ok (some t) st2) =>
          some (.ok (some (.UnsizedArray t num_references)) st2)
      | .SizedArray num_references child number_elements _ =>
        match type_resolution_resolve_type base fuel st child gens module with
        | none => none
        | some .panic => some .panic
        | some (.ok none st2) => some (.ok none st2)
        | some (.ok (some t) st2) =>
          some (.ok (some (.SizedArray t num_references number_elements)) st2)
termination_by structural fuel => fuel

end

/-- The starting state of struct resolution for a context: untyped structs
as parsed, typed slots freshly seeded, no errors yet. -/
def initTCState (base : ModuleContext) : TCState :=
  { ustructs := base.structs,
    tstructs := seedTypedStructs base.structs.length,
    errors := [] }

/-- Resolve the structs with the given ids in order, each against its own
module (the module_id recorded on the untyped struct). -/
def resolveStructsAux (base : ModuleContext) (fuel : Nat) :
    TCState → List Nat → Option (StepResult Unit)
  | st, [] => some (.ok () st)
  | st, id :: rest =>
    match st.ustructs[id]? with
    | none => some .panic
    | some us =>
      match resolve_struct base fuel st id us.module_id with
      | none => none
      | some .panic => some .panic
      | some (.ok _ st2) => resolveStructsAux base fuel st2 rest

/-- Modelled from the spec: the struct-resolution driver (the typechecking
entry point is not under src/). The spec fixes that every struct is
resolved, in handle order, with inline recursion into dependencies; this
driver calls resolve_struct on each handle in order. -/
def resolve_all_structs (base : ModuleContext) (fuel : Nat) :
    Option (StepResult Unit) :=
  resolveStructsAux base fuel (initTCState base)
    (List.range base.structs.length)

/-!
Concrete inputs used by the claim theorems: small modules and contexts
mirroring the literal scenarios of the spec (self-referential struct,
reference cycle, mutual recursion, import cycle, missing names).
-/

/-- A sample real location (any non-dummy location works). -/
def loc1 : Location := { file := "main.lang", line := 1, column := 1 }

/-- A second sample location. -/
def loc2 : Location := { file := "main.lang", line := 1, column := 10 }

/-- A third sample location. -/
def loc3 : Location := { file := "main.lang", line := 2, column := 10 }

/-- An untyped module with the given scope and nothing else. -/
def scopeOnlyModule (scope : List (GlobalStr × ModuleScopeValue)) :
    UntypedModule :=
  { scope := scope, exports := [], imports := [], path := "", root := "" }

/-- A one-struct, one-module context: the struct named nm whose single
field fld has the given type. -/
def oneStructCtx (nm fld : GlobalStr) (ftyp : TypeRef) : ModuleContext :=
  { modules := [scopeOnlyModule [(nm, .Struct 0)]],
    structs := [{ name := nm, elements := [(fld, ftyp)], location := loc1,
                  global_impl := [], annotations := [], module_id := 0,
                  generics := [] }],
    traits := [], functions := [], external_functions := [], statics := [] }

/-- The spec scenario struct A { a: A }: a self-referential field with no
reference. -/
def selfRefCtx : ModuleContext :=
  oneStructCtx "A" "a" (.Reference 0 [("A", [])] loc2)

/-- The spec scenario struct S { next: &S }: a self-referential field
behind one reference. -/
def refCycleCtx : ModuleContext :=
  oneStructCtx "S" "next" (.Reference 1 [("S", [])] loc2)

/-- A two-struct context struct A { a: B } struct B { a: tB } where tB is
the type of the field of B. -/
def twoStructCtx (tB : TypeRef) : ModuleContext :=
  { modules := [scopeOnlyModule [("A", .Struct 0), ("B", .Struct 1)]],
    structs := [{ name := "A", elements := [("a", .Reference 0 [("B", [])] loc2)],
                  location := loc1, global_impl := [], annotations := [],
                  module_id := 0, generics := [] },
                { name := "B", elements := [("a", tB)], location := loc1,
                  global_impl := [], annotations := [], module_id := 0,
                  generics := [] }],
    traits := [], functions := [], external_functions := [], statics := [] }

/-- struct A { a: B } struct B { a: A }: mutual recursion with no
reference. -/
def mutualCtx : ModuleContext := twoStructCtx (.Reference 0 [("A", [])] loc3)

/-- struct A { a: B } struct B { a: &A }: mutual recursion broken by a
reference. -/
def mutualRefCtx : ModuleContext := twoStructCtx (.Reference 1 [("A", [])] loc3)

/-- The errors of a finished struct-resolution run. -/
def runErrors (r : Option (StepResult Unit)) : Option (List TypecheckingError) :=
  match r with
  | some (.ok _ st) => some st.errors
  | _ => none

/-- The committed element lists of the typed structs of a finished run. -/
def runElements (r : Option (StepResult Unit)) :
    Option (List (List (GlobalStr × Ty))) :=
  match r with
  | some (.ok _ st) => some (st.tstructs.map (fun t => t.elements))
  | _ => none

/-- A context with two empty modules and nothing else (for the module-table
seeding of TypecheckingContext::new). -/
def twoModuleCtx : ModuleContext :=
  { modules := [scopeOnlyModule [], scopeOnlyModule []],
    structs := [], traits := [], functions := [], external_functions := [],
    statics := [] }

/-- The typed context TypecheckingContext::new builds for twoModuleCtx. -/
def twoModuleTC : TypecheckingContext :=
  { modules := [{ scope := [], exports := [], path := "", root := "" }],
    functions := [], external_functions := [], statics := [], structs := [],
    traits := [], lang_items := .default_items }

/-- A context with a single module that defines, imports and exports
nothing (for the missing-name paths of resolve_import). -/
def emptyModuleCtx : ModuleContext :=
  { modules := [scopeOnlyModule []], structs := [], traits := [],
    functions := [], external_functions := [], statics := [] }

/-- The typed twin of emptyModuleCtx. -/
def emptyModuleTC : TypecheckingContext :=
  { modules := [{ scope := [], exports := [], path := "", root := "" }],
    functions := [], external_functions := [], statics := [], structs := [],
    traits := [], lang_items := .default_items }

/-- The import-cycle context of the spec scenario: module 0 imports x from
module 1 and exports it as x; module 1 imports x from module 0 and exports
it as x. -/
def importCycleCtx : ModuleContext :=
  { modules := [{ scope := [], exports := [("x", "x")],
                  imports := [("x", (loc2, 1, ["x"]))], path := "", root := "" },
                { scope := [], exports := [("x", "x")],
                  imports := [("x", (loc3, 0, ["x"]))], path := "", root := "" }],
    structs := [], traits := [], functions := [], external_functions := [],
    statics := [] }

/-- A module whose scope holds x but whose exports do not (for the export
gating witness). -/
def scopeNotExportCtx : ModuleContext :=
  { modules := [scopeOnlyModule [("x", .Static 0)]], structs := [],
    traits := [], functions := [], external_functions := [], statics := [] }

/-- The empty old-generation module (Module::new with no imports). -/
def Old.emptyModule : Old.Module :=
  { structs := [], functions := [], external_functions := [],
    static_values := [], function_registry := [], imports := [], exports := [] }

/-- The old-generation module after pushing struct f, the first item of the
duplicate-name counterexample. -/
def Old.moduleWithStructF : Old.Module :=
  (Old.emptyModule.push_statement (.StructDef "f" [] loc1 [] [] [])).1

/-!
The finite universes that bound the pairs resolve_import can ever push into
its visited list, used by the termination proof: module ids reachable as
targets of imports or as Module values stored in scopes, and names
reachable as path segments of stored imports.
-/

/-- Every module id stored as the target of an import declaration anywhere
in the context. -/
def importTargets (ctx : ModuleContext) : List Nat :=
  ctx.modules.flatMap (fun md => md.imports.map (fun e => e.2.2.1))

/-- Every module id stored as a Module scope value anywhere in the
context. -/
def scopeModuleIds (ctx : ModuleContext) : List Nat :=
  ctx.modules.flatMap (fun md =>
    md.scope.filterMap (fun e =>
      match e.2 with
      | .Module id => some id
      | _ => none))

/-- Every name occurring in the path of an import declaration anywhere in
the context. -/
def importNames (ctx : ModuleContext) : List GlobalStr :=
  ctx.modules.flatMap (fun md => md.imports.flatMap (fun e => e.2.2.2))

/-!
Claim theorems.
-/

/-- splitCh never returns an empty list of components, mirroring that the
split iterator in Rust always yields a first item. -/
theorem splitCh_ne_nil (sep : Char) (l : List Char) : splitCh sep l ≠ [] := by
  cases l with
  | nil => simp [splitCh]
  | cons c cs =>
    simp only [splitCh]
    cases h : splitCh sep cs with
    | nil => simp
    | cons p ps =>
      by_cases hc : c = sep <;> simp [hc]


/-- C7: for every Target built from the allowed arch, os and abi sets,
parsing the Display form returns exactly that target; the Display form is
arch-os when the ABI is None and arch-os-abi otherwise, and it never ends
in a dash. -/
theorem target_display_round_trip :
    ∀ t : Target,
      Target.from_str (Target.display t) = .ok t
      ∧ Target.display t =
          (if t.abi = Abi.None then t.arch.to_str ++ "-" ++ t.os.to_str
           else t.arch.to_str ++ "-" ++ t.os.to_str ++ "-" ++ t.abi.to_str)
      ∧ (Target.display t).data.getLast? ≠ some (Char.ofNat 45) := by
  intro t
  obtain ⟨a, o, b⟩ := t
  cases a <;> cases o <;> cases b <;> exact ⟨rfl, rfl, by decide⟩

/-- C9: try_clone_deref returns None exactly when the reference count is
positive, the opposite of can_deref. -/
theorem try_clone_deref_none_iff :
    ∀ t : Old.TypeRef,
      (t.try_clone_deref = .returnedNone ↔ 0 < t.get_ref_count)
      ∧ (t.try_clone_deref = .returnedNone ↔ t.can_deref = true) := by
  intro t
  have h1 : t.try_clone_deref = .returnedNone ↔ 0 < t.get_ref_count := by
    cases t with
    | Reference n name loc =>
      by_cases h : 0 < n <;>
        simp [Old.TypeRef.try_clone_deref, Old.TypeRef.get_ref_count, h]
    | Void loc n =>
      by_cases h : 0 < n <;>
        simp [Old.TypeRef.try_clone_deref, Old.TypeRef.get_ref_count, h]
    | Never loc =>
      simp [Old.TypeRef.try_clone_deref, Old.TypeRef.get_ref_count]
    | UnsizedArray n child loc =>
      by_cases h : 0 < n <;>
        simp [Old.TypeRef.try_clone_deref, Old.TypeRef.get_ref_count, h]
    | SizedArray n child k loc =>
      by_cases h : 0 < n <;>
        simp [Old.TypeRef.try_clone_deref, Old.TypeRef.get_ref_count, h]
  refine ⟨h1, h1.trans ?_⟩
  simp [Old.TypeRef.can_deref]

/-- C10, counterexample: the claim says the empty string fails with
InvalidArch; it in fact fails with MissingOs, because arch extraction
succeeds on the single empty component and the os extraction fails before
any component is validated. -/
theorem from_str_empty_is_missing_os :
    Target.from_str "" = .error .MissingOs
    ∧ Target.from_str "" ≠ .error .InvalidArch := by
  refine ⟨rfl, ?_⟩
  intro h
  rw [show Target.from_str "" = Except.error TargetParsingError.MissingOs from rfl] at h
  simp at h

/-- C10, amended: Target::from_str never returns MissingArch (splitting any
string on a dash yields at least one component), and the empty string fails
with MissingOs. -/
theorem from_str_never_missing_arch :
    (∀ s : String, Target.from_str s ≠ .error .MissingArch)
    ∧ Target.from_str "" = .error .MissingOs := by
  refine ⟨?_, rfl⟩
  intro s
  have hne := splitCh_ne_nil '-' s.data
  unfold Target.from_str
  cases hsp : splitCh '-' s.data with
  | nil => exact absurd hsp hne
  | cons a rest =>
    cases rest with
    | nil => simp
    | cons o rest2 =>
      cases rest2 with
      | nil =>
        cases harch : Arch.from_str a with
        | none => simp [harch]
        | some A =>
          cases hos : Os.from_str o with
          | none => simp [harch, hos]
          | some O => simp [harch, hos]
      | cons ab rest3 =>
        cases rest3 with
        | nil =>
          cases harch : Arch.from_str a with
          | none => simp [harch]
          | some A =>
            cases hos : Os.from_str o with
            | none => simp [harch, hos]
            | some O =>
              cases habi : Abi.from_str ab with
              | none => simp [harch, hos, habi]
              | some B => simp [harch, hos, habi]
        | cons x rest4 => simp

/-- C8: a one-segment path whose segment is found in neither the exports,
imports nor scope of its module makes resolve_import panic (the fallthrough
error names import[1], which is out of bounds), where the typed resolver
returns ExportNotFound with the unresolved first segment on the same
shape. -/
theorem resolve_import_single_segment_panics :
    resolve_import emptyModuleCtx 10 0 ["x"] loc1 [] = some (.panic, [(0, "x")])
    ∧ typed_resolve_import emptyModuleTC 0 ["x"] loc1 []
        = .err (.ExportNotFound loc1 "x") := by
  exact ⟨rfl, rfl⟩

/-- C1: struct resolution rejects value recursion (struct A with field a
of type A, and the mutual pair A, B with fields of each other) with
RecursiveTypeDetected, in agreement with the claim; but it also reports
RecursiveTypeDetected and drops the field for the reference cycles struct
S with field next of type ref S and the mutual pair broken by a reference,
which the claim says must resolve with no errors: the in-progress check of
resolve_struct never consults num_references. -/
theorem struct_recursion_rule_behavior :
    runErrors (resolve_all_structs selfRefCtx 10)
        = some [.RecursiveTypeDetected loc2]
    ∧ runErrors (resolve_all_structs mutualCtx 10)
        = some [.RecursiveTypeDetected loc3]
    ∧ runErrors (resolve_all_structs refCycleCtx 10)
        = some [.RecursiveTypeDetected loc2]
    ∧ runElements (resolve_all_structs refCycleCtx 10) = some [[]]
    ∧ runErrors (resolve_all_structs mutualRefCtx 10)
        = some [.RecursiveTypeDetected loc3]
    ∧ runElements (resolve_all_structs mutualRefCtx 10)
        = some [[("a", .Struct 1 "B" 0)], []] := by
  exact ⟨rfl, rfl, rfl, rfl, rfl, rfl⟩

/-- C2, counterexample: with struct f already defined (is_defined is true),
pushing a function also named f reports no error at all, and afterwards
both the struct map and the function map bind f; so module assembly does
not yield IdentAlreadyDefined when the second item is a function. -/
theorem push_function_skips_duplicate_check :
    Old.moduleWithStructF.is_defined "f" = true
    ∧ (Old.moduleWithStructF.push_statement
        (.Function { name := some "f", location := loc2 } .opaque_body)).2 = none
    ∧ containsKey (Old.moduleWithStructF.push_statement
        (.Function { name := some "f", location := loc2 } .opaque_body)).1.structs
        "f" = true
    ∧ containsKey (Old.moduleWithStructF.push_statement
        (.Function { name := some "f", location := loc2 } .opaque_body)).1.functions
        "f" = true := by
  exact ⟨rfl, rfl, rfl, rfl⟩

/-- C2, amended: the duplicate-name check runs when the second item is a
struct, a typed global variable or a named external function: each then
yields IdentAlreadyDefined and leaves the module unchanged. Pushing a
function never checks for duplicates: with any named contract it succeeds
and binds the name to the newly registered function id, shadowing any
previous binding of that name in the function map. -/
theorem push_statement_duplicate_checks :
    ∀ m : Old.Module,
      (∀ name fields l gi im an, m.is_defined name = true →
        m.push_statement (.StructDef name fields l gi im an)
          = (m, some (.IdentAlreadyDefined l name)))
      ∧ (∀ name expr typ l, m.is_defined name = true →
        m.push_statement (.Var name expr (some typ) l)
          = (m, some (.IdentAlreadyDefined l name)))
      ∧ (∀ name l, m.is_defined name = true →
        m.push_statement (.ExternalFunction { name := some name, location := l })
          = (m, some (.IdentAlreadyDefined l name)))
      ∧ (∀ contract body name, contract.name = some name →
        (m.push_statement (.Function contract body)).2 = none
        ∧ lookupA (m.push_statement (.Function contract body)).1.functions name
            = some m.function_registry.length) := by
  intro m
  refine ⟨?_, ?_, ?_, ?_⟩
  · intro name fields l gi im an h
    simp [Old.Module.push_statement, Old.Statement.loc, h]
  · intro name expr typ l h
    simp [Old.Module.push_statement, Old.Statement.loc, h]
  · intro name l h
    simp [Old.Module.push_statement, Old.Statement.loc, h]
  · intro contract body name h
    simp [Old.Module.push_statement, Old.Statement.loc, Old.Module.push_fn,
      listInsert, lookupA, h]

/-- C6, counterexample: during struct-field resolution a single-segment
path naming the in-scope generic T written with one reference resolves to
Generic T 0, not Generic T 1: the written reference count is discarded. -/
theorem generic_ref_count_dropped :
    type_resolution_resolve_type emptyModuleCtx 1 (initTCState emptyModuleCtx)
        (.Reference 1 [("T", [])] loc2) ["T"] 0
      = some (.ok (some (.Generic "T" 0)) (initTCState emptyModuleCtx))
    ∧ Ty.Generic "T" 0 ≠ Ty.Generic "T" 1 := by
  exact ⟨rfl, by decide⟩

/-- C6, amended: a single-segment, non-primitive, argument-free path whose
name is an in-scope generic resolves to Generic with the written reference
count in resolve_type, but to Generic with reference count 0 in
type_resolution_resolve_type (struct-field resolution), where the source
hardcodes 0. -/
theorem generic_resolution_ref_counts :
    ∀ (tc : TypecheckingContext) (base : ModuleContext) (st : TCState)
      (module_id n fuel : Nat) (name : GlobalStr) (gens : List GlobalStr)
      (loc : Location),
      primitiveOfName name = none →
      gens.contains name = true →
      resolve_type tc module_id (.Reference n [(name, [])] loc) gens
          = .ok (.Generic name n)
      ∧ type_resolution_resolve_type base (fuel + 1) st
          (.Reference n [(name, [])] loc) gens module_id
          = some (.ok (some (.Generic name 0)) st) := by
  intro tc base st module_id n fuel name gens loc hp hg
  have hmem : name ∈ gens := by simpa using hg
  constructor
  · simp [resolve_type, resolve_primitive_type, hp, hg]
    intro hnot
    exact absurd hmem hnot
  · simp [type_resolution_resolve_type, resolve_primitive_type, hp, hg]
    intro hnot
    exact absurd hmem hnot

/-- C6, witness for the amended theorem at a concrete generic T with two
references. -/
theorem generic_resolution_ref_counts_witness :
    resolve_type emptyModuleTC 0 (.Reference 2 [("T", [])] loc2) ["T"]
        = .ok (.Generic "T" 2)
    ∧ type_resolution_resolve_type emptyModuleCtx 1 (initTCState emptyModuleCtx)
        (.Reference 2 [("T", [])] loc2) ["T"] 0
        = some (.ok (some (.Generic "T" 0)) (initTCState emptyModuleCtx)) := by
  exact generic_resolution_ref_counts emptyModuleTC emptyModuleCtx
    (initTCState emptyModuleCtx) 0 2 0 "T" ["T"] loc2 rfl rfl

/-- C3: the five item tables of the typed context are seeded at exactly the
lengths of their untyped counterparts; the typed module table, however, is
always seeded with exactly one entry, so a context with two untyped modules
(concretely twoModuleCtx) gets a typed module table of length one and the
untyped module handle 1 has no typed twin. -/
theorem typed_context_new_lengths :
    (∀ (ctx : ModuleContext) (tc : TypecheckingContext),
        TypecheckingContext.new ctx = some tc →
        tc.structs.length = ctx.structs.length
        ∧ tc.traits.length = ctx.traits.length
        ∧ tc.functions.length = ctx.functions.length
        ∧ tc.external_functions.length = ctx.external_functions.length
        ∧ tc.statics.length = ctx.statics.length
        ∧ tc.modules.length = 1)
    ∧ TypecheckingContext.new twoModuleCtx = some twoModuleTC
    ∧ twoModuleCtx.modules.length = 2
    ∧ twoModuleTC.modules.length = 1 := by
  refine ⟨?_, rfl, rfl, rfl⟩
  intro ctx tc h
  unfold TypecheckingContext.new at h
  cases hm : ctx.modules[0]? with
  | none => rw [hm] at h; simp at h
  | some md0 =>
    rw [hm] at h
    simp only [Option.some.injEq] at h
    subst h
    simp [seedTypedStructs]

/-- C3, witness: the general length statement applied to the concrete
two-module context. -/
theorem typed_context_new_lengths_witness :
    twoModuleTC.modules.length = 1
    ∧ twoModuleTC.structs.length = twoModuleCtx.structs.length :=
  ⟨(typed_context_new_lengths.1 twoModuleCtx twoModuleTC rfl).2.2.2.2.2,
   (typed_context_new_lengths.1 twoModuleCtx twoModuleTC rfl).1⟩

/-- C4: with the first path segment absent from the exports of the module
under inspection, resolution started in that module (empty visited list,
so the list has length 1 after the push, below the threshold of 2) falls
through to the scope and succeeds on a scope hit; but once the visited
list is non-empty (the walk crossed a module boundary), the same missing
export fails with ExportNotFound naming the segment, whatever the scope
holds. -/
theorem export_gating_across_modules :
    ∀ (ctx : ModuleContext) (m : Nat) (md : UntypedModule) (x : GlobalStr)
      (loc : Location) (fuel : Nat),
      ctx.modules[m]? = some md →
      lookupA md.exports x = none →
      ((∀ v, lookupA md.imports x = none → lookupA md.scope x = some v →
          resolve_import ctx (fuel + 1) m [x] loc [] = some (.ok v, [(m, x)]))
       ∧ (∀ (vis : Visited) (rest : List GlobalStr),
          vis ≠ [] → pairMem vis m x = false →
          resolve_import ctx (fuel + 1) m (x :: rest) loc vis
            = some (.err (.ExportNotFound loc x), vis ++ [(m, x)]))) := by
  intro ctx m md x loc fuel hm hexp
  constructor
  · intro v himp hsc
    simp [resolve_import, pairMem, hm, identOf, hexp, himp, hsc]
  · intro vis rest hne hpm
    have hlen : ¬ vis.length + 1 < 2 := by
      cases vis with
      | nil => exact absurd rfl hne
      | cons w ws => simp
    simp [resolve_import, hpm, hm, identOf, hexp, hlen]

/-- C4, witness: the gating applied to a concrete one-module context whose
scope holds x as a static but whose exports are empty. -/
theorem export_gating_across_modules_witness :
    resolve_import scopeNotExportCtx 1 0 ["x"] loc1 []
        = some (.ok (.Static 0), [(0, "x")])
    ∧ resolve_import scopeNotExportCtx 1 0 ["x"] loc1 [(1, "y")]
        = some (.err (.ExportNotFound loc1 "x"), [(1, "y"), (0, "x")]) :=
  ⟨(export_gating_across_modules scopeNotExportCtx 0
      (scopeOnlyModule [("x", .Static 0)]) "x" loc1 0 rfl rfl).1
      (.Static 0) rfl rfl,
   (export_gating_across_modules scopeNotExportCtx 0
      (scopeOnlyModule [("x", .Static 0)]) "x" loc1 0 rfl rfl).2
      [(1, "y")] [] (by simp) rfl⟩

/-- Fuel monotonicity of resolve_import: a run that finishes within some
fuel finishes identically with one unit more. -/
theorem resolve_import_mono (ctx : ModuleContext) :
    ∀ (fuel m : Nat) (imp : List GlobalStr) (loc : Location) (vis : Visited)
      (r : RunRes ModuleScopeValue × Visited),
      resolve_import ctx fuel m imp loc vis = some r →
      resolve_import ctx (fuel + 1) m imp loc vis = some r := by
  intro fuel
  induction fuel with
  | zero =>
    intro m imp loc vis r h
    simp [resolve_import] at h
  | succ f ih =>
    intro m imp loc vis r h
    match imp with
    | [] => exact h
    | i0 :: rest =>
      rw [resolve_import] at h ⊢
      by_cases hpm : pairMem vis m i0
      · simp only [hpm, if_true] at h ⊢
        exact h
      · simp only [hpm, if_false, Bool.false_eq_true] at h ⊢
        cases hmod : ctx.modules[m]? with
        | none => rw [hmod] at h; exact h
        | some md =>
          rw [hmod] at h
          dsimp only at h ⊢
          cases hid : identOf md i0 (vis ++ [(m, i0)]).length with
          | none => rw [hid] at h; exact h
          | some ident =>
            rw [hid] at h
            dsimp only at h ⊢
            cases himp : lookupA md.imports ident with
            | none => rw [himp] at h; exact h
            | some tgt =>
              obtain ⟨sl, m2, p2⟩ := tgt
              rw [himp] at h
              dsimp only at h ⊢
              cases hrec : resolve_import ctx f m2 p2 sl (vis ++ [(m, i0)]) with
              | none => rw [hrec] at h; exact absurd h (by simp)
              | some rv =>
                have hlift := ih m2 p2 sl (vis ++ [(m, i0)]) rv hrec
                rw [hrec] at h
                rw [hlift]
                obtain ⟨res, vis2⟩ := rv
                cases res with
                | err e => exact h
                | panic => exact h
                | ok value =>
                  cases rest with
                  | nil => exact h
                  | cons i1 rest2 =>
                    cases value with
                    | Module id => exact ih id (i1 :: rest2) loc vis2 r h
                    | Struct sid => exact h
                    | Trait tid => exact h
                    | Function fid => exact h
                    | ExternalFunction fid => exact h
                    | Static stid => exact h

/-- Fuel monotonicity, ≤ form. -/
theorem resolve_import_mono_le (ctx : ModuleContext) {f g : Nat} (hle : f ≤ g) :
    ∀ (m : Nat) (imp : List GlobalStr) (loc : Location) (vis : Visited)
      (r : RunRes ModuleScopeValue × Visited),
      resolve_import ctx f m imp loc vis = some r →
      resolve_import ctx g m imp loc vis = some r := by
  induction g, hle using Nat.le_induction with
  | base => exact fun m imp loc vis r h => h
  | succ g hle ih =>
    intro m imp loc vis r h
    exact resolve_import_mono ctx g m imp loc vis r (ih m imp loc vis r h)

/-- pairMem decides membership of the pair in the visited list. -/
theorem pairMem_iff (vis : Visited) (m : Nat) (s : GlobalStr) :
    pairMem vis m s = true ↔ (m, s) ∈ vis := by
  simp only [pairMem, List.any_eq_true, Bool.and_eq_true, beq_iff_eq]
  constructor
  · rintro ⟨⟨a, b⟩, hmem, h1, h2⟩
    subst h1
    subst h2
    exact hmem
  · intro h
    exact ⟨(m, s), h, rfl, rfl⟩

/-- lookupA hits are members of the association list. -/
theorem lookupA_mem {α : Type} :
    ∀ (l : List (GlobalStr × α)) (k : GlobalStr) (v : α),
      lookupA l k = some v → (k, v) ∈ l := by
  intro l
  induction l with
  | nil => intro k v h; simp [lookupA] at h
  | cons e rest ih =>
    intro k v h
    obtain ⟨k0, v0⟩ := e
    rw [lookupA] at h
    by_cases hk : k0 = k
    · rw [if_pos hk] at h
      obtain rfl := Option.some.inj h
      subst hk
      exact List.mem_cons_self _ _
    · rw [if_neg hk] at h
      exact List.mem_cons_of_mem _ (ih k v h)

/-- An import entry found in a module of the context contributes its target
module id and all its path names to the universes. -/
theorem import_entry_mem (ctx : ModuleContext) {m : Nat} {md : UntypedModule}
    {ident : GlobalStr} {sl : Location} {m2 : Nat} {p2 : List GlobalStr}
    (hmod : ctx.modules[m]? = some md)
    (himp : lookupA md.imports ident = some (sl, m2, p2)) :
    m2 ∈ importTargets ctx ∧ ∀ s ∈ p2, s ∈ importNames ctx := by
  have hmdmem : md ∈ ctx.modules := List.getElem?_mem hmod
  have hentry : (ident, (sl, m2, p2)) ∈ md.imports := lookupA_mem _ _ _ himp
  constructor
  · simp only [importTargets, List.mem_flatMap, List.mem_map]
    exact ⟨md, hmdmem, (ident, (sl, m2, p2)), hentry, rfl⟩
  · intro s hs
    simp only [importNames, List.mem_flatMap]
    exact ⟨md, hmdmem, (ident, (sl, m2, p2)), hentry, hs⟩

/-- A Module value stored in a scope of the context contributes its id to
the scope-module universe. -/
theorem scope_module_mem (ctx : ModuleContext) {m : Nat} {md : UntypedModule}
    {ident : GlobalStr} {id : Nat}
    (hmod : ctx.modules[m]? = some md)
    (hsc : lookupA md.scope ident = some (.Module id)) :
    id ∈ scopeModuleIds ctx := by
  have hmdmem : md ∈ ctx.modules := List.getElem?_mem hmod
  have hentry : (ident, ModuleScopeValue.Module id) ∈ md.scope :=
    lookupA_mem _ _ _ hsc
  simp only [scopeModuleIds, List.mem_flatMap, List.mem_filterMap]
  exact ⟨md, hmdmem, (ident, .Module id), hentry, rfl⟩

/-- The struct tail of the imports branch never produces a Module value. -/
theorem structTailImports_ne_module (ctx : ModuleContext) (loc : Location)
    (sid : Nat) (i1 : GlobalStr) (rest2 : List GlobalStr) (id : Nat) :
    structTailImports ctx loc sid i1 rest2 ≠ .ok (.Module id) := by
  unfold structTailImports
  cases h1 : ctx.structs[sid]? with
  | none => simp
  | some st =>
    cases h2 : lookupA st.global_impl i1 with
    | none => simp [h2]
    | some fid =>
      cases rest2 with
      | nil => simp [h2]
      | cons i2 t => cases h3 : ctx.functions[fid]? <;> simp [h2, h3]

/-- The struct tail of the scope branch never produces a Module value. -/
theorem structTailScope_ne_module (ctx : ModuleContext) (loc : Location)
    (sid : Nat) (i1 : GlobalStr) (rest2 : List GlobalStr) (id : Nat) :
    structTailScope ctx loc sid i1 rest2 ≠ .ok (.Module id) := by
  unfold structTailScope
  cases h1 : ctx.structs[sid]? with
  | none => simp
  | some st =>
    cases h2 : lookupA st.global_impl i1 with
    | none => simp [h2]
    | some fid => cases rest2 <;> simp [h2]

/-- A finished run only ever appends to the visited list. -/
theorem resolve_import_visited_extends (ctx : ModuleContext) :
    ∀ (fuel m : Nat) (imp : List GlobalStr) (loc : Location) (vis : Visited)
      (res : RunRes ModuleScopeValue) (vis2 : Visited),
      resolve_import ctx fuel m imp loc vis = some (res, vis2) →
      ∃ ext, vis2 = vis ++ ext := by
  intro fuel
  induction fuel with
  | zero =>
    intro m imp loc vis res vis2 h
    simp [resolve_import] at h
  | succ f ih =>
    intro m imp loc vis res vis2 h
    match imp with
    | [] =>
      rw [resolve_import] at h
      simp only [Option.some.injEq, Prod.mk.injEq] at h
      exact ⟨[], by simp [h.2.symm]⟩
    | i0 :: rest =>
      rw [resolve_import] at h
      by_cases hpm : pairMem vis m i0 = true
      · simp only [hpm, if_true] at h
        simp only [Option.some.injEq, Prod.mk.injEq] at h
        exact ⟨[], by simp [h.2.symm]⟩
      · simp only [hpm, if_false, Bool.false_eq_true] at h
        cases hmod : ctx.modules[m]? with
        | none =>
          rw [hmod] at h
          dsimp only at h
          simp only [Option.some.injEq, Prod.mk.injEq] at h
          exact ⟨[(m, i0)], h.2.symm⟩
        | some md =>
          rw [hmod] at h
          dsimp only at h
          cases hid : identOf md i0 (vis ++ [(m, i0)]).length with
          | none =>
            rw [hid] at h
            dsimp only at h
            simp only [Option.some.injEq, Prod.mk.injEq] at h
            exact ⟨[(m, i0)], h.2.symm⟩
          | some ident =>
            rw [hid] at h
            dsimp only at h
            cases himp : lookupA md.imports ident with
            | none =>
              rw [himp] at h
              dsimp only at h
              cases hsc : lookupA md.scope ident with
              | some value =>
                rw [hsc] at h
                dsimp only at h
                cases rest with
                | nil =>
                  simp only [Option.some.injEq, Prod.mk.injEq] at h
                  exact ⟨[(m, i0)], h.2.symm⟩
                | cons i1 rest2 =>
                  cases value <;>
                    (simp only [Option.some.injEq, Prod.mk.injEq] at h;
                     exact ⟨[(m, i0)], h.2.symm⟩)
              | none =>
                rw [hsc] at h
                dsimp only at h
                cases rest with
                | nil =>
                  simp only [Option.some.injEq, Prod.mk.injEq] at h
                  exact ⟨[(m, i0)], h.2.symm⟩
                | cons i1 t =>
                  simp only [Option.some.injEq, Prod.mk.injEq] at h
                  exact ⟨[(m, i0)], h.2.symm⟩
            | some tgt =>
              obtain ⟨sl, m2, p2⟩ := tgt
              rw [himp] at h
              dsimp only at h
              cases hrec : resolve_import ctx f m2 p2 sl (vis ++ [(m, i0)]) with
              | none => rw [hrec] at h; exact absurd h (by simp)
              | some rv =>
                rw [hrec] at h
                obtain ⟨res1, visr⟩ := rv
                obtain ⟨ext1, hext1⟩ :=
                  ih m2 p2 sl (vis ++ [(m, i0)]) res1 visr hrec
                cases res1 with
                | err e =>
                  simp only [Option.some.injEq, Prod.mk.injEq] at h
                  exact ⟨(m, i0) :: ext1, by simp [h.2.symm, hext1]⟩
                | panic =>
                  simp only [Option.some.injEq, Prod.mk.injEq] at h
                  exact ⟨(m, i0) :: ext1, by simp [h.2.symm, hext1]⟩
                | ok value =>
                  cases rest with
                  | nil =>
                    simp only [Option.some.injEq, Prod.mk.injEq] at h
                    exact ⟨(m, i0) :: ext1, by simp [h.2.symm, hext1]⟩
                  | cons i1 rest2 =>
                    cases value with
                    | Module id =>
                      obtain ⟨ext2, hext2⟩ :=
                        ih id (i1 :: rest2) loc visr res vis2 h
                      exact ⟨(m, i0) :: ext1 ++ ext2, by
                        simp [hext2, hext1]⟩
                    | Struct sid =>
                      simp only [Option.some.injEq, Prod.mk.injEq] at h
                      exact ⟨(m, i0) :: ext1, by simp [h.2.symm, hext1]⟩
                    | Trait tid =>
                      simp only [Option.some.injEq, Prod.mk.injEq] at h
                      exact ⟨(m, i0) :: ext1, by simp [h.2.symm, hext1]⟩
                    | Function fid =>
                      simp only [Option.some.injEq, Prod.mk.injEq] at h
                      exact ⟨(m, i0) :: ext1, by simp [h.2.symm, hext1]⟩
                    | ExternalFunction fid =>
                      simp only [Option.some.injEq, Prod.mk.injEq] at h
                      exact ⟨(m, i0) :: ext1, by simp [h.2.symm, hext1]⟩
                    | Static stid =>
                      simp only [Option.some.injEq, Prod.mk.injEq] at h
                      exact ⟨(m, i0) :: ext1, by simp [h.2.symm, hext1]⟩

/-- The termination engine for resolve_import: fixing finite universes M of
module ids and S of names that are closed under everything the walk can
push (import targets and scope-stored module ids into M, stored import
path names into S), every call whose module is in M and whose path names
are in S finishes with some fuel; moreover any Module value it returns is
again in M. The induction is on the number of universe pairs not yet in
the visited list: each recursion happens strictly after pushing a fresh
pair drawn from the universe. -/
theorem resolve_import_exists_fuel (ctx : ModuleContext) (M : Finset Nat)
    (S : Finset GlobalStr)
    (hImp : ∀ id ∈ importTargets ctx, id ∈ M)
    (hScp : ∀ id ∈ scopeModuleIds ctx, id ∈ M)
    (hNames : ∀ s ∈ importNames ctx, s ∈ S) :
    ∀ (n : Nat) (vis : Visited), ((M ×ˢ S) \ vis.toFinset).card = n →
      ∀ (m : Nat) (imp : List GlobalStr) (loc : Location),
        m ∈ M → (∀ s ∈ imp, s ∈ S) →
        ∃ (fuel : Nat) (res : RunRes ModuleScopeValue) (vis2 : Visited),
          resolve_import ctx fuel m imp loc vis = some (res, vis2)
          ∧ ∀ id, res = .ok (.Module id) → id ∈ M := by
  intro n
  induction n using Nat.strong_induction_on with
  | _ n ih =>
    intro vis hcard m imp loc hm himp
    match imp with
    | [] =>
      refine ⟨1, .ok (.Module m), vis, rfl, ?_⟩
      intro id hid
      cases hid
      exact hm
    | i0 :: rest =>
      have hi0 : i0 ∈ S := himp i0 (List.mem_cons_self _ _)
      have hrest : ∀ s ∈ rest, s ∈ S :=
        fun s hs => himp s (List.mem_cons_of_mem _ hs)
      by_cases hpm : pairMem vis m i0 = true
      · refine ⟨1, .err (.CyclicDependency loc), vis, ?_, ?_⟩
        · simp [resolve_import, hpm]
        · intro id hid; exact absurd hid (by simp)
      · have hnotin : (m, i0) ∉ vis := fun hin =>
          hpm ((pairMem_iff vis m i0).mpr hin)
        have hpair : (m, i0) ∈ (M ×ˢ S) \ vis.toFinset := by
          rw [Finset.mem_sdiff, Finset.mem_product]
          exact ⟨⟨hm, hi0⟩, fun hin => hnotin (List.mem_toFinset.mp hin)⟩
        have hsub1 : vis.toFinset ⊆ (vis ++ [(m, i0)]).toFinset := by
          intro p hp
          rw [List.toFinset_append]
          exact Finset.mem_union_left _ hp
        have hss :
            (M ×ˢ S) \ (vis ++ [(m, i0)]).toFinset
              ⊂ (M ×ˢ S) \ vis.toFinset := by
          refine ⟨Finset.sdiff_subset_sdiff (Finset.Subset.refl _) hsub1, ?_⟩
          intro hsup
          have := hsup hpair
          rw [Finset.mem_sdiff] at this
          apply this.2
          rw [List.toFinset_append]
          simp
        have hcard1 :
            ((M ×ˢ S) \ (vis ++ [(m, i0)]).toFinset).card < n := by
          rw [← hcard]
          exact Finset.card_lt_card hss
      -- now the case analysis on the body
        cases hmod : ctx.modules[m]? with
        | none =>
          refine ⟨1, .panic, vis ++ [(m, i0)], ?_, ?_⟩
          · simp [resolve_import, hpm, hmod]
          · intro id hid; exact absurd hid (by simp)
        | some md =>
          cases hid0 : identOf md i0 (vis.length + 1) with
          | none =>
            refine ⟨1, .err (.ExportNotFound loc i0), vis ++ [(m, i0)], ?_, ?_⟩
            · simp [resolve_import, hpm, hmod, hid0]
            · intro id hid; exact absurd hid (by simp)
          | some ident =>
            cases himpt : lookupA md.imports ident with
            | some tgt =>
              obtain ⟨sl, m2, p2⟩ := tgt
              obtain ⟨hm2, hp2⟩ := import_entry_mem ctx hmod himpt
              obtain ⟨f1, res1, vis2, heq1, hmod1⟩ :=
                ih _ hcard1 (vis ++ [(m, i0)]) rfl m2 p2 sl (hImp _ hm2)
                  (fun s hs => hNames s (hp2 s hs))
              cases res1 with
              | err e =>
                refine ⟨f1 + 1, .err e, vis2, ?_, ?_⟩
                · simp [resolve_import, hpm, hmod, hid0, himpt, heq1]
                · intro id hid; exact absurd hid (by simp)
              | panic =>
                refine ⟨f1 + 1, .panic, vis2, ?_, ?_⟩
                · simp [resolve_import, hpm, hmod, hid0, himpt, heq1]
                · intro id hid; exact absurd hid (by simp)
              | ok value =>
                cases rest with
                | nil =>
                  refine ⟨f1 + 1, .ok value, vis2, ?_, hmod1⟩
                  simp [resolve_import, hpm, hmod, hid0, himpt, heq1]
                | cons i1 rest2 =>
                  cases value with
                  | Module id2 =>
                    have hid2 : id2 ∈ M := hmod1 id2 rfl
                    obtain ⟨ext1, hext1⟩ :=
                      resolve_import_visited_extends ctx f1 m2 p2 sl
                        (vis ++ [(m, i0)]) (.ok (.Module id2)) vis2 heq1
                    have hsub2 :
                        (vis ++ [(m, i0)]).toFinset ⊆ vis2.toFinset := by
                      intro p hp
                      rw [hext1, List.toFinset_append]
                      exact Finset.mem_union_left _ hp
                    have hcard2 : ((M ×ˢ S) \ vis2.toFinset).card < n := by
                      calc ((M ×ˢ S) \ vis2.toFinset).card
                          ≤ ((M ×ˢ S) \ (vis ++ [(m, i0)]).toFinset).card :=
                            Finset.card_le_card
                              (Finset.sdiff_subset_sdiff
                                (Finset.Subset.refl _) hsub2)
                        _ < n := hcard1
                    obtain ⟨f2, res2, vis3, heq2, hmod2⟩ :=
                      ih _ hcard2 vis2 rfl id2 (i1 :: rest2) loc hid2 hrest
                    refine ⟨max f1 f2 + 1, res2, vis3, ?_, hmod2⟩
                    have heq1b :=
                      resolve_import_mono_le ctx (le_max_left f1 f2)
                        m2 p2 sl (vis ++ [(m, i0)]) _ heq1
                    have heq2b :=
                      resolve_import_mono_le ctx (le_max_right f1 f2)
                        id2 (i1 :: rest2) loc vis2 _ heq2
                    simp [resolve_import, hpm, hmod, hid0, himpt, heq1b, heq2b]
                  | Struct sid =>
                    refine ⟨f1 + 1, structTailImports ctx loc sid i1 rest2,
                      vis2, ?_, ?_⟩
                    · simp [resolve_import, hpm, hmod, hid0, himpt, heq1]
                    · intro id hid
                      exact absurd hid
                        (structTailImports_ne_module ctx loc sid i1 rest2 id)
                  | Trait tid =>
                    refine ⟨f1 + 1, .err (.ExportNotFound loc i1), vis2, ?_, ?_⟩
                    · simp [resolve_import, hpm, hmod, hid0, himpt, heq1]
                    · intro id hid; exact absurd hid (by simp)
                  | Function fid =>
                    refine ⟨f1 + 1, .err (.ExportNotFound loc i1), vis2, ?_, ?_⟩
                    · simp [resolve_import, hpm, hmod, hid0, himpt, heq1]
                    · intro id hid; exact absurd hid (by simp)
                  | ExternalFunction fid =>
                    refine ⟨f1 + 1, .err (.ExportNotFound loc i1), vis2, ?_, ?_⟩
                    · simp [resolve_import, hpm, hmod, hid0, himpt, heq1]
                    · intro id hid; exact absurd hid (by simp)
                  | Static stid =>
                    refine ⟨f1 + 1, .err (.ExportNotFound loc i1), vis2, ?_, ?_⟩
                    · simp [resolve_import, hpm, hmod, hid0, himpt, heq1]
                    · intro id hid; exact absurd hid (by simp)
            | none =>
              cases hsc : lookupA md.scope ident with
              | some value =>
                cases rest with
                | nil =>
                  refine ⟨1, .ok value, vis ++ [(m, i0)], ?_, ?_⟩
                  · simp [resolve_import, hpm, hmod, hid0, himpt, hsc]
                  · intro id hid
                    have hv : value = .Module id := by
                      cases hid; rfl
                    subst hv
                    exact hScp _ (scope_module_mem ctx hmod hsc)
                | cons i1 rest2 =>
                  cases value with
                  | Module idm =>
                    refine ⟨1, .panic, vis ++ [(m, i0)], ?_, ?_⟩
                    · simp [resolve_import, hpm, hmod, hid0, himpt, hsc]
                    · intro id hid; exact absurd hid (by simp)
                  | Struct sid =>
                    refine ⟨1, structTailScope ctx loc sid i1 rest2,
                      vis ++ [(m, i0)], ?_, ?_⟩
                    · simp [resolve_import, hpm, hmod, hid0, himpt, hsc]
                    · intro id hid
                      exact absurd hid
                        (structTailScope_ne_module ctx loc sid i1 rest2 id)
                  | Trait tid =>
                    refine ⟨1, .err (.ExportNotFound loc i1),
                      vis ++ [(m, i0)], ?_, ?_⟩
                    · simp [resolve_import, hpm, hmod, hid0, himpt, hsc]
                    · intro id hid; exact absurd hid (by simp)
                  | Function fid =>
                    refine ⟨1, .err (.ExportNotFound loc i1),
                      vis ++ [(m, i0)], ?_, ?_⟩
                    · simp [resolve_import, hpm, hmod, hid0, himpt, hsc]
                    · intro id hid; exact absurd hid (by simp)
                  | ExternalFunction fid =>
                    refine ⟨1, .err (.ExportNotFound loc i1),
                      vis ++ [(m, i0)], ?_, ?_⟩
                    · simp [resolve_import, hpm, hmod, hid0, himpt, hsc]
                    · intro id hid; exact absurd hid (by simp)
                  | Static stid =>
                    refine ⟨1, .err (.ExportNotFound loc i1),
                      vis ++ [(m, i0)], ?_, ?_⟩
                    · simp [resolve_import, hpm, hmod, hid0, himpt, hsc]
                    · intro id hid; exact absurd hid (by simp)
              | none =>
                cases rest with
                | nil =>
                  refine ⟨1, .panic, vis ++ [(m, i0)], ?_, ?_⟩
                  · simp [resolve_import, hpm, hmod, hid0, himpt, hsc]
                  · intro id hid; exact absurd hid (by simp)
                | cons i1 t =>
                  refine ⟨1, .err (.ExportNotFound loc i1),
                    vis ++ [(m, i0)], ?_, ?_⟩
                  · simp [resolve_import, hpm, hmod, hid0, himpt, hsc]
                  · intro id hid; exact absurd hid (by simp)

/-- C5: resolve_import terminates on every input, cyclic import graphs
included: for every context, module, path and visited list some fuel
suffices for the recursion to finish (the pair pushed before each
recursion is drawn from a finite universe and never repeats, which bounds
the recursion depth); and on the concrete two-module import cycle the walk
aborts with exactly one CyclicDependency error as soon as the repeated
(module, first-segment) pair is seen again. -/
theorem resolve_import_terminates_and_detects_cycle :
    (∀ (ctx : ModuleContext) (m : Nat) (imp : List GlobalStr) (loc : Location)
        (vis : Visited),
      ∃ (fuel : Nat) (r : RunRes ModuleScopeValue × Visited),
        resolve_import ctx fuel m imp loc vis = some r)
    ∧ resolve_import importCycleCtx 10 0 ["x"] loc1 []
        = some (.err (.CyclicDependency loc3), [(0, "x"), (1, "x")]) := by
  constructor
  · intro ctx m imp loc vis
    obtain ⟨fuel, res, vis2, heq, _⟩ :=
      resolve_import_exists_fuel ctx
        (insert m ((importTargets ctx).toFinset ∪ (scopeModuleIds ctx).toFinset))
        (imp.toFinset ∪ (importNames ctx).toFinset)
        (fun id h =>
          Finset.mem_insert_of_mem
            (Finset.mem_union_left _ (List.mem_toFinset.mpr h)))
        (fun id h =>
          Finset.mem_insert_of_mem
            (Finset.mem_union_right _ (List.mem_toFinset.mpr h)))
        (fun s h => Finset.mem_union_right _ (List.mem_toFinset.mpr h))
        _ vis rfl m imp loc (Finset.mem_insert_self _ _)
        (fun s h => Finset.mem_union_left _ (List.mem_toFinset.mpr h))
    exact ⟨fuel, (res, vis2), heq⟩
  · rfl

/-- C2, witness for the amended duplicate-check theorem, at the concrete
module that already defines struct f. -/
theorem push_statement_duplicate_checks_witness :
    Old.moduleWithStructF.push_statement (.StructDef "f" [] loc2 [] [] [])
      = (Old.moduleWithStructF, some (.IdentAlreadyDefined loc2 "f"))
    ∧ Old.moduleWithStructF.push_statement
        (.Var "f" (.OtherExpr loc3) (some (.Never loc3)) loc2)
      = (Old.moduleWithStructF, some (.IdentAlreadyDefined loc2 "f"))
    ∧ Old.moduleWithStructF.push_statement
        (.ExternalFunction { name := some "f", location := loc2 })
      = (Old.moduleWithStructF, some (.IdentAlreadyDefined loc2 "f"))
    ∧ (Old.moduleWithStructF.push_statement
        (.Function { name := some "f", location := loc2 } .opaque_body)).2
        = none :=
  ⟨(push_statement_duplicate_checks Old.moduleWithStructF).1
      "f" [] loc2 [] [] [] rfl,
   (push_statement_duplicate_checks Old.moduleWithStructF).2.1
      "f" (.OtherExpr loc3) (.Never loc3) loc2 rfl,
   (push_statement_duplicate_checks Old.moduleWithStructF).2.2.1
      "f" loc2 rfl,
   ((push_statement_duplicate_checks Old.moduleWithStructF).2.2.2
      { name := some "f", location := loc2 } .opaque_body "f" rfl).1⟩
